import Mathlib

/-!
Verification of the wearcolours-filter-app core logic.

This file shallowly embeds the JavaScript source of the repository:
  - `app/routes/proxy.school-products.jsx` (public query endpoint:
    `splitGrades`, `fetchShopifyCollectionHandlesInOrder`,
    `reorderHandlesByShopifyOrder`, `loader`), and
  - `app/routes/app._index.jsx` (`action`, intent `syncGradesBatch`).

JavaScript strings become Lean `String`s; `String.prototype.trim` is
modelled by `jsTrim`; a JS `Set` of strings (insertion ordered, used only
through membership, insertion and deletion) is modelled by a duplicate-free
`List String` in insertion order; a JS `Map` / plain object keyed by strings
is modelled by an association list in insertion order.  Network and
database calls (Shopify GraphQL, Supabase) are I/O: each call site is
abstracted as an explicit parameter giving that call's outcome
(`Except String result`, a thrown error or the returned value), and
database writes are recorded in an explicit write trace.
-/

/-- Whitespace test used by the model of `String.prototype.trim`
(the common ASCII whitespace characters). -/
def isJsWS (c : Char) : Bool :=
  c = ' ' || c = '\t' || c = '\n' || c = '\r' || c = '\x0b' || c = '\x0c'

/-- Trim leading and trailing whitespace from a character list. -/
def trimChars (l : List Char) : List Char :=
  ((l.dropWhile isJsWS).reverse.dropWhile isJsWS).reverse

/-- Model of JavaScript `String.prototype.trim`. -/
def jsTrim (s : String) : String :=
  String.mk (trimChars s.data)

/-- Model of JavaScript `a || b` on strings (`""` is the only falsy string). -/
def jsOr (a b : String) : String :=
  if a = "" then b else a

/-- Model of JavaScript `s || null`: an empty string becomes `null`. -/
def strOpt (s : String) : Option String :=
  if s = "" then none else some s

/-- Adding one element to a JS `Set` of strings (no-op when present,
else appended, preserving insertion order). -/
def setAdd (s : List String) (x : String) : List String :=
  if x ∈ s then s else s ++ [x]

/-- Adding many elements to a JS `Set` of strings, in order. -/
def setAddAll (s : List String) (xs : List String) : List String :=
  xs.foldl setAdd s

/-- `new Set(xs)` for a string array: insertion-ordered deduplication. -/
def jsSet (xs : List String) : List String :=
  xs.foldl setAdd []

/-- First-occurrence deduplication of a string list (specification-side
recursive form of `jsSet`). -/
def dedupFirst : List String → List String
  | [] => []
  | x :: xs => x :: (dedupFirst xs).filter (fun y => y ≠ x)

/-- JavaScript `arr.join(",")`. -/
def joinComma (l : List String) : String :=
  String.intercalate ("," ) l

/-- Helper of `splitComma`: walk the characters, cutting at every comma
(`cur` holds the current token's characters in reverse). -/
def splitCommaAux : List Char → List Char → List String
  | [], cur => [String.mk cur.reverse]
  | c :: rest, cur =>
    if c = ',' then String.mk cur.reverse :: splitCommaAux rest []
    else splitCommaAux rest (c :: cur)

/-- Model of JavaScript `s.split(",")` (single-character separator, no
limit; the empty string splits to `[""]`). -/
def splitComma (s : String) : List String :=
  splitCommaAux s.data []

/-- `splitGrades` from `proxy.school-products.jsx` lines 4-9:
split on commas, trim each token, drop falsy (empty) tokens. -/
def splitGrades (value : String) : List String :=
  ((splitComma value).map jsTrim).filter (fun t => t ≠ "")

/-- Numeric key used by the `(a, b) => Number(a) - Number(b)` sort
comparator, restricted to integer-like grade tokens (non-numeric tokens
get key 0, matching the comparator's "treat as equal" NaN behaviour only
approximately; no claim depends on the sort order). -/
def numKey (s : String) : Int :=
  (s.toInt?).getD 0

/-- Stable insertion of a string into a list sorted by `numKey`. -/
def insertNum (x : String) : List String → List String
  | [] => [x]
  | y :: ys => if numKey x ≤ numKey y then x :: y :: ys else y :: insertNum x ys

/-- Stable sort by `numKey`, modelling `.sort((a, b) => Number(a) - Number(b))`. -/
def sortByNum (l : List String) : List String :=
  l.foldr insertNum []

/-- Helper loop of `uniqStrings` from `app._index.jsx` lines 71-83:
`seen` holds the lower-cased keys already emitted. -/
def uniqStringsAux : List String → List String → List String
  | [], _ => []
  | v :: rest, seen =>
    let s := jsTrim v
    if s = "" then uniqStringsAux rest seen
    else if s.toLower ∈ seen then uniqStringsAux rest seen
    else s :: uniqStringsAux rest (s.toLower :: seen)

/-- `uniqStrings` from `app._index.jsx`: trim, drop empties, dedupe
case-insensitively keeping the first-seen casing. -/
def uniqStrings (arr : List String) : List String :=
  uniqStringsAux arr []

/-! ## Order reconciler (`proxy.school-products.jsx` lines 96-118) -/

/-- One pass of `reorderHandlesByShopifyOrder`'s loop body (both loops in
the source share this body): walk the handle list, trim each handle, and
when it is still in the working set emit it and delete it from the set.
Returns the emitted handles and the remaining working set. -/
def orderWalk : List String → List String → List String × List String
  | [], supSet => ([], supSet)
  | h :: rest, supSet =>
    let key := jsTrim h
    if key ∈ supSet then
      let r := orderWalk rest (supSet.filter (fun x => x ≠ key))
      (key :: r.1, r.2)
    else orderWalk rest supSet

/-- `reorderHandlesByShopifyOrder(supabaseHandles, shopifyOrderedHandles)`:
build the set of trimmed non-empty Supabase handles, first emit the ones
occurring in the Shopify order (in that order), then append the leftovers
in Supabase order. -/
def reorderHandlesByShopifyOrder (supabaseHandles shopifyOrderedHandles : List String) :
    List String :=
  let supSet := jsSet ((supabaseHandles.map jsTrim).filter (fun s => s ≠ ""))
  let r1 := orderWalk shopifyOrderedHandles supSet
  let r2 := orderWalk supabaseHandles r1.2
  r1.1 ++ r2.1

/-- `fetchShopifyCollectionHandlesInOrder` (lines 77-88): try the
`COLLECTION_DEFAULT` sort-key query; on a thrown error retry without the
sort key; if that also throws, return the empty list.  The two `runQuery`
executions are I/O and enter as the outcomes of the two attempts. -/
def fetchShopifyCollectionHandlesInOrder
    (attemptWithSortKey attemptNoSortKey : Except String (List String)) : List String :=
  match attemptWithSortKey with
  | Except.ok hs => hs
  | Except.error _ =>
    match attemptNoSortKey with
    | Except.ok hs => hs
    | Except.error _ => []

/-! ## Public query endpoint (`proxy.school-products.jsx` `loader`) -/

/-- A Mapping Store row as read by the query endpoint (`product_handle`,
`grade`; `null` database values are read through `|| ""` / `String(v || "")`
and therefore enter the model as `""`). -/
structure Row where
  product_handle : String
  grade : String
deriving DecidableEq

/-- The query parameters of the endpoint.  `page` and `limit` may be
present on the request URL; the loader reads only `collection_handle`,
`grade` and `product_handle` (absent parameters read as `""`). -/
structure ProxyParams where
  collection_handle : String
  grade : String
  product_handle : String
  page : String
  limit : String
deriving DecidableEq

/-- The JSON bodies the loader can produce (authorization and transport
chrome aside). -/
inductive ProxyResponse where
  | badRequest (error : String)
  | serverError (error : String)
  | productMode (collection_handle product_handle : String)
      (grades : List String) (grades_csv : String)
  | collectionMode (collection_handle : String) (grade_selected : Option String)
      (total_handles : Nat) (handles : List String)
      (available_grades : List String) (gradeByHandle : List (String × String))
deriving DecidableEq

/-- Lookup in an insertion-ordered string-keyed object / `Map`. -/
def lookupKV {β : Type} (k : String) : List (String × β) → Option β
  | [] => none
  | (k1, v) :: rest => if k1 = k then some v else lookupKV k rest

/-- Setting an existing key of an object / `Map`: replace the value,
keep the key's position. -/
def updateKV {β : Type} (k : String) (v : β) (m : List (String × β)) : List (String × β) :=
  m.map (fun p => if p.1 = k then (k, v) else p)

/-- The `gradeByHandleSet` building loop (`proxy.school-products.jsx`
lines 213-220): for each filtered row with a non-empty trimmed handle,
add the row's split grades into that handle's set (creating the set on
first sight, object keys in insertion order). -/
def buildGradeSets : List Row → List (String × List String) → List (String × List String)
  | [], m => m
  | r :: rest, m =>
    let h := jsTrim r.product_handle
    if h = "" then buildGradeSets rest m
    else
      let gs := splitGrades r.grade
      match lookupKV h m with
      | none => buildGradeSets rest (m ++ [(h, setAddAll [] gs)])
      | some prev => buildGradeSets rest (updateKV h (setAddAll prev gs) m)

/-- The grade filter (lines 208-210): when a grade is selected keep rows
whose split grades contain it. -/
def filteredRowsOf (rows : List Row) (gradeSelected : String) : List Row :=
  if gradeSelected = "" then rows
  else rows.filter (fun r => gradeSelected ∈ splitGrades r.grade)

/-- `supabaseHandles` (lines 222-228): distinct trimmed non-empty handles
of the filtered rows, in first-occurrence order. -/
def collectionHandles (rows : List Row) (gradeSelected : String) : List String :=
  jsSet (((filteredRowsOf rows gradeSelected).map (fun r => jsTrim r.product_handle)).filter
    (fun h => h ≠ ""))

/-- The `gradeByHandle` object (lines 230-234): for each handle join its
grade set with commas; if the handle had no set (unreachable for handles
of `collectionHandles`) the source writes `""`. -/
def collectionGradeByHandle (rows : List Row) (gradeSelected : String) :
    List (String × String) :=
  let fr := filteredRowsOf rows gradeSelected
  (collectionHandles rows gradeSelected).map (fun h =>
    match lookupKV h (buildGradeSets fr []) with
    | some s => (h, joinComma s)
    | none => (h, ""))

/-- The grade set accumulated over a row list (`gradeSet` loops, lines
175-178 and 201-204). -/
def gradeSetOf (rows : List Row) : List String :=
  rows.foldl (fun s r => setAddAll s (splitGrades r.grade)) []

/-- The `loader` of `proxy.school-products.jsx` (lines 120-273), after
the app-proxy authorization check.  `productQuery` and `collectionQuery`
are the two Supabase selects (keyed as at the call sites); the two order
attempts feed `fetchShopifyCollectionHandlesInOrder`. -/
def proxyLoader (params : ProxyParams)
    (productQuery : String → String → Except String (List Row))
    (collectionQuery : String → Except String (List Row))
    (attemptWithSortKey attemptNoSortKey : Except String (List String)) : ProxyResponse :=
  let collectionHandle := jsTrim params.collection_handle
  let gradeSelected := jsTrim params.grade
  let productHandle := jsTrim params.product_handle
  if collectionHandle = "" then ProxyResponse.badRequest ("Missing collection_handle")
  else if productHandle ≠ "" then
    match productQuery collectionHandle productHandle with
    | Except.error msg => ProxyResponse.serverError msg
    | Except.ok rows =>
      let grades := sortByNum (gradeSetOf rows)
      ProxyResponse.productMode collectionHandle productHandle grades (joinComma grades)
  else
    match collectionQuery collectionHandle with
    | Except.error msg => ProxyResponse.serverError msg
    | Except.ok rows =>
      let available_grades := sortByNum (gradeSetOf rows)
      let supabaseHandles := collectionHandles rows gradeSelected
      let gradeByHandle := collectionGradeByHandle rows gradeSelected
      let shopifyOrderedHandles :=
        fetchShopifyCollectionHandlesInOrder attemptWithSortKey attemptNoSortKey
      let handles :=
        if shopifyOrderedHandles.isEmpty then supabaseHandles
        else reorderHandlesByShopifyOrder supabaseHandles shopifyOrderedHandles
      ProxyResponse.collectionMode collectionHandle
        (if gradeSelected = "" then none else some gradeSelected)
        handles.length handles available_grades gradeByHandle

/-- The `handles` field of a collection-mode response. -/
def responseHandles : ProxyResponse → Option (List String)
  | ProxyResponse.collectionMode _ _ _ hs _ _ => some hs
  | _ => none

/-! ## Bulk sync engine (`app._index.jsx` `action`, intent `syncGradesBatch`) -/

/-- One row of the Source Table page (`"Handle"`, `"Grade"`; `null`
values read through `cleanText(v ?? "")` enter the model as `""`). -/
structure SourceRow where
  Handle : String
  Grade : String
deriving DecidableEq

/-- One `handleToGrade` map entry: the first-seen raw-cased handle and
the currently kept grade. -/
structure HandleEntry where
  handleRaw : String
  grade : String
deriving DecidableEq

/-- The `handleToGrade` building loop (`app._index.jsx` lines 469-483):
skip rows whose handle trims to empty; key on the lower-cased trimmed
handle; first row per key wins, except that a later duplicate's non-empty
grade replaces a kept empty grade. -/
def buildAux : List SourceRow → List (String × HandleEntry) → List (String × HandleEntry)
  | [], m => m
  | r :: rest, m =>
    let handleRaw := jsTrim r.Handle
    if handleRaw = "" then buildAux rest m
    else
      let key := handleRaw.toLower
      let grade := jsTrim r.Grade
      match lookupKV key m with
      | none => buildAux rest (m ++ [(key, { handleRaw := handleRaw, grade := grade })])
      | some prev =>
        if prev.grade = "" ∧ grade ≠ "" then
          buildAux rest
            (updateKV key ({ handleRaw := jsOr prev.handleRaw handleRaw, grade := grade }) m)
        else buildAux rest m

/-- The deduplicated `handleToGrade` map of one Source Table page. -/
def buildHandleToGrade (rows : List SourceRow) : List (String × HandleEntry) :=
  buildAux rows []

/-- The `size` column of an existing Mapping Store row: a string array,
a plain string, or `null` (the source branches on `Array.isArray` and
`typeof s === "string"`). -/
inductive SizeVal where
  | arr (xs : List String)
  | str (s : String)
  | null
deriving DecidableEq

/-- An existing Mapping Store row as selected by the sync loop
(`select("id,size")`; the id is not used by the logic). -/
structure ExistRow where
  size : SizeVal
deriving DecidableEq

/-- A collection membership returned by the Shopify product lookup. -/
structure ShopCollection where
  id : String
  title : String
  handle : String
deriving DecidableEq

/-- The result of `fetchProductByHandleWithCollectionsAndSizes`. -/
structure ShopProduct where
  id : String
  title : String
  handle : String
  sizes : List String
  collections : List ShopCollection
deriving DecidableEq

/-- A record passed to the Mapping Store upsert (`updated_at`, set to the
wall clock at write time, is environmental and omitted). -/
structure MappingRecord where
  shopify_product_id : String
  product_title : Option String
  product_handle : Option String
  collection_id : Option String
  collection_title : Option String
  collection_handle : Option String
  grade : Option String
  size : Option (List String)
deriving DecidableEq

/-- A write issued against the Mapping Store by the sync loop. -/
inductive WriteOp where
  | update (handle : String) (grade : Option String) (size : Option (List String))
  | upsert (handle : String) (records : List MappingRecord)
deriving DecidableEq

/-- The outcomes of the I/O calls one `syncGradesBatch` invocation can
make: the Source Table page read (rows plus exact count when it is a
number), and, per raw handle, the case-insensitive Mapping Store lookup,
the update's affected-row count, the live Shopify product fetch, and the
upsert's returned row count (`none` when no row array comes back, in
which case the source falls back to the record count). -/
structure SyncEnv where
  masterPage : Except String (List SourceRow × Option Int)
  existingRows : String → Except String (List ExistRow)
  updateCount : String → Except String Nat
  fetchProduct : String → Except String (Option ShopProduct)
  upsertReturn : String → Except String (Option Nat)

/-- The per-batch counters accumulated by the handle loop. -/
structure BatchCounts where
  updatedHandles : Nat
  updatedRows : Nat
  insertedProducts : Nat
  insertedRows : Nat
  missingInShopify : Nat
deriving DecidableEq

/-- The upsert records built for a found product (lines 550-560). -/
def mkUpsertRecords (prod : ShopProduct) (handleRaw grade : String) : List MappingRecord :=
  prod.collections.map (fun c =>
    { shopify_product_id := prod.id
      product_title := strOpt prod.title
      product_handle := strOpt (jsOr prod.handle handleRaw)
      collection_id := strOpt c.id
      collection_title := strOpt c.title
      collection_handle := strOpt c.handle
      grade := strOpt grade
      size := if prod.sizes.isEmpty then none else some prod.sizes })

/-- The sizes merged from the existing rows of a handle (lines 511-517). -/
def mergedSizesOf (existing : List ExistRow) : List String :=
  uniqStrings (existing.flatMap (fun row =>
    match row.size with
    | SizeVal.arr xs => xs
    | SizeVal.str s => if jsTrim s = "" then [] else [jsTrim s]
    | SizeVal.null => []))

/-- The sequential per-handle loop (lines 494-572).  Any store or catalog
error aborts the remainder of the loop (the batch's `catch` turns it into
an error result); writes already issued are kept in the trace. -/
def processHandles (env : SyncEnv) :
    List (String × HandleEntry) → BatchCounts → Except String BatchCounts × List WriteOp
  | [], acc => (Except.ok acc, [])
  | (hKey, entry) :: rest, acc =>
    let handleRaw := jsOr entry.handleRaw hKey
    let grade := jsTrim entry.grade
    match env.existingRows handleRaw with
    | Except.error msg => (Except.error msg, [])
    | Except.ok existing =>
      if existing.isEmpty then
        match env.fetchProduct handleRaw with
        | Except.error msg => (Except.error msg, [])
        | Except.ok none =>
          processHandles env rest
            { acc with missingInShopify := acc.missingInShopify + 1 }
        | Except.ok (some prod) =>
          if prod.id = "" then
            processHandles env rest
              { acc with missingInShopify := acc.missingInShopify + 1 }
          else if prod.collections.isEmpty then
            processHandles env rest acc
          else
            let records := mkUpsertRecords prod handleRaw grade
            match env.upsertReturn handleRaw with
            | Except.error msg => (Except.error msg, [WriteOp.upsert handleRaw records])
            | Except.ok ret =>
              let insLen := match ret with | some n => n | none => records.length
              let r := processHandles env rest
                { acc with insertedProducts := acc.insertedProducts + 1,
                           insertedRows := acc.insertedRows + insLen }
              (r.1, WriteOp.upsert handleRaw records :: r.2)
      else
        let mergedSizeArray := mergedSizesOf existing
        let w := WriteOp.update handleRaw (strOpt grade)
          (if mergedSizeArray.isEmpty then none else some mergedSizeArray)
        match env.updateCount handleRaw with
        | Except.error msg => (Except.error msg, [w])
        | Except.ok cnt =>
          let r := processHandles env rest
            { acc with updatedHandles := acc.updatedHandles + 1,
                       updatedRows := acc.updatedRows + cnt }
          (r.1, w :: r.2)

/-- The running totals threaded through chained batch invocations
(client-supplied JSON numbers, hence `Int`). -/
structure RunTotals where
  batches : Int
  uniqueHandles : Int
  updatedHandles : Int
  updatedRows : Int
  insertedProducts : Int
  insertedRows : Int
  missingInShopify : Int
deriving DecidableEq

/-- The `summary` object of one batch result. -/
structure BatchSummary where
  offset : Int
  limit : Int
  batchFetched : Nat
  uniqueHandles : Nat
  updatedHandles : Nat
  updatedRows : Nat
  insertedProducts : Nat
  insertedRows : Nat
  missingInShopify : Nat
  masterTotal : Option Int
  nextOffset : Int
  hasMore : Bool
deriving DecidableEq

/-- The JSON result of the `syncGradesBatch` action: `{ok:true, done,
summary, runTotals}` or `{ok:false, error}`. -/
inductive SyncResult where
  | success (done : Bool) (summary : BatchSummary) (runTotals : RunTotals)
  | failure (error : String)
deriving DecidableEq

/-- The `syncGradesBatch` intent of the `action` (`app._index.jsx` lines
409-611), from the clamping of `offset` and `limit` onwards, with
`runTotals` the parsed caller-supplied totals.  Returns the action's JSON
result together with the trace of Mapping Store writes it issued. -/
def syncGradesBatch (env : SyncEnv) (offsetIn limitIn : Int) (runTotals : RunTotals) :
    SyncResult × List WriteOp :=
  let offset := max 0 offsetIn
  let limit := max 1 (min 200 limitIn)
  match env.masterPage with
  | Except.error msg => (SyncResult.failure msg, [])
  | Except.ok (rows, masterTotal) =>
    let batchFetched := rows.length
    if batchFetched = 0 then
      (SyncResult.success true
        { offset := offset, limit := limit, batchFetched := 0, uniqueHandles := 0,
          updatedHandles := 0, updatedRows := 0, insertedProducts := 0,
          insertedRows := 0, missingInShopify := 0, masterTotal := masterTotal,
          nextOffset := offset, hasMore := false }
        runTotals, [])
    else
      let entries := buildHandleToGrade rows
      let uniqueHandles := entries.length
      match processHandles env entries
        { updatedHandles := 0, updatedRows := 0, insertedProducts := 0,
          insertedRows := 0, missingInShopify := 0 } with
      | (Except.error msg, ws) => (SyncResult.failure msg, ws)
      | (Except.ok c, ws) =>
        let nextOffset := offset + limit
        let hasMore := match masterTotal with
          | some total => decide (nextOffset < total)
          | none => true
        let newTotals : RunTotals :=
          { batches := runTotals.batches + 1,
            uniqueHandles := runTotals.uniqueHandles + uniqueHandles,
            updatedHandles := runTotals.updatedHandles + c.updatedHandles,
            updatedRows := runTotals.updatedRows + c.updatedRows,
            insertedProducts := runTotals.insertedProducts + c.insertedProducts,
            insertedRows := runTotals.insertedRows + c.insertedRows,
            missingInShopify := runTotals.missingInShopify + c.missingInShopify }
        (SyncResult.success (!hasMore)
          { offset := offset, limit := limit, batchFetched := batchFetched,
            uniqueHandles := uniqueHandles, updatedHandles := c.updatedHandles,
            updatedRows := c.updatedRows, insertedProducts := c.insertedProducts,
            insertedRows := c.insertedRows, missingInShopify := c.missingInShopify,
            masterTotal := masterTotal, nextOffset := nextOffset, hasMore := hasMore }
          newTotals, ws)

/-! ## Specification-side characterizations and concrete test environments -/

/-- The distinct trimmed non-empty mapping handles, in first-occurrence
order (what the reorder claim calls the distinct mapping handles). -/
def mappingDistinct (m : List String) : List String :=
  dedupFirst ((m.map jsTrim).filter (fun s => s ≠ ""))

/-- The catalog-ordered block of the reorder claim: first occurrences of
trimmed catalog handles that are distinct mapping handles. -/
def catalogPart (m c : List String) : List String :=
  dedupFirst ((c.map jsTrim).filter (fun x => x ∈ mappingDistinct m))

/-- The Source Table rows of one page that fall under dedup key `k`:
non-blank trimmed handle whose lower-casing is `k`, in page order. -/
def grpRows (k : String) (rows : List SourceRow) : List SourceRow :=
  rows.filter (fun r => jsTrim r.Handle ≠ "" ∧ (jsTrim r.Handle).toLower = k)

/-- The grade the dedup keeps for a key group: the first non-empty
trimmed grade in page order, else `""`. -/
def firstGrade (l : List SourceRow) : String :=
  match l.find? (fun r => jsTrim r.Grade ≠ "") with
  | some r => jsTrim r.Grade
  | none => ""

/-- The filtered rows whose trimmed handle equals `h`, in row order. -/
def rowsHandleGroup (fr : List Row) (h : String) : List Row :=
  fr.filter (fun r => jsTrim r.product_handle = h)

/-- All grade tokens contributed to handle `h` by the filtered rows,
in row order (with duplicates). -/
def handleGrades (fr : List Row) (h : String) : List String :=
  (rowsHandleGroup fr h).flatMap (fun r => splitGrades r.grade)

/-- The claim's `hasMore` law: `nextOffset < totalCount` when the exact
count is a number, else `true`. -/
def hasMoreSpec (cnt : Option Int) (nextOffset : Int) : Bool :=
  match cnt with
  | some total => decide (nextOffset < total)
  | none => true

/-- All-zero running totals. -/
def totalsZero : RunTotals :=
  { batches := 0, uniqueHandles := 0, updatedHandles := 0, updatedRows := 0,
    insertedProducts := 0, insertedRows := 0, missingInShopify := 0 }

/-- All-zero batch counters. -/
def countsZero : BatchCounts :=
  { updatedHandles := 0, updatedRows := 0, insertedProducts := 0,
    insertedRows := 0, missingInShopify := 0 }

/-- A concrete sync environment whose Source Table page is empty and in
which every handle is unknown everywhere. -/
def envEmptyPage : SyncEnv :=
  { masterPage := Except.ok ([], none),
    existingRows := fun _ => Except.ok [],
    updateCount := fun _ => Except.ok 0,
    fetchProduct := fun _ => Except.ok none,
    upsertReturn := fun _ => Except.ok none }

/-- A concrete sync environment with a one-row page (handle `a`, grade
`1`, exact count 10) whose handle is in neither store. -/
def envOneMissing : SyncEnv :=
  { masterPage := Except.ok ([{ Handle := ("a"), Grade := ("1") }], some 10),
    existingRows := fun _ => Except.ok [],
    updateCount := fun _ => Except.ok 0,
    fetchProduct := fun _ => Except.ok none,
    upsertReturn := fun _ => Except.ok none }

/-- The summary `envOneMissing` yields at offset 0, limit 50. -/
def summaryOneMissing : BatchSummary :=
  { offset := 0, limit := 50, batchFetched := 1, uniqueHandles := 1,
    updatedHandles := 0, updatedRows := 0, insertedProducts := 0,
    insertedRows := 0, missingInShopify := 1, masterTotal := some 10,
    nextOffset := 50, hasMore := false }

/-- The run totals `envOneMissing` yields from zero totals. -/
def totalsOneMissing : RunTotals :=
  { batches := 1, uniqueHandles := 1, updatedHandles := 0, updatedRows := 0,
    insertedProducts := 0, insertedRows := 0, missingInShopify := 1 }

/-- A product-mode Supabase query returning no rows. -/
def pqEmpty : String → String → Except String (List Row) :=
  fun _ _ => Except.ok []

/-- A collection-mode Supabase query returning no rows. -/
def cqEmpty : String → Except String (List Row) :=
  fun _ => Except.ok []

/-- A collection-mode Supabase query returning two rows with distinct
handles. -/
def cqTwoRows : String → Except String (List Row) :=
  fun _ => Except.ok [{ product_handle := ("h1"), grade := ("1") },
                      { product_handle := ("h2"), grade := ("2") }]

/-! ## Set and deduplication lemmas -/

theorem mem_dedupFirst (y : String) (l : List String) : y ∈ dedupFirst l ↔ y ∈ l := by
  induction l with
  | nil => simp [dedupFirst]
  | cons x xs ih =>
    by_cases h : y = x
    · subst h; simp [dedupFirst]
    · simp [dedupFirst, List.mem_filter, ih, h]

theorem dedupFirst_nodup (l : List String) : (dedupFirst l).Nodup := by
  induction l with
  | nil => simp [dedupFirst]
  | cons x xs ih =>
    simp only [dedupFirst]
    refine List.Nodup.cons ?_ (ih.filter _)
    simp [List.mem_filter]

theorem dedupFirst_filter (p : String → Bool) (l : List String) :
    dedupFirst (l.filter p) = (dedupFirst l).filter p := by
  induction l with
  | nil => simp [dedupFirst]
  | cons x xs ih =>
    by_cases h : p x
    · rw [List.filter_cons, if_pos h]
      simp only [dedupFirst, ih, List.filter_cons, if_pos h]
      rw [List.filter_filter, List.filter_filter]
      refine congrArg (fun t => x :: t) (List.filter_congr ?_)
      intro a _
      by_cases ha : a = x <;> simp [ha]
    · rw [List.filter_cons, if_neg h]
      simp only [dedupFirst, ih, List.filter_cons]
      rw [if_neg (by simpa using h)]
      rw [List.filter_filter]
      refine List.filter_congr ?_
      intro a _
      by_cases ha : a = x
      · subst ha; simp [h]
      · simp [ha]

theorem foldl_setAdd (l : List String) : ∀ acc : List String,
    l.foldl setAdd acc = acc ++ (dedupFirst l).filter (fun y => y ∉ acc) := by
  induction l with
  | nil => intro acc; simp [dedupFirst]
  | cons x xs ih =>
    intro acc
    rw [List.foldl_cons, ih (setAdd acc x)]
    by_cases hx : x ∈ acc
    · rw [setAdd, if_pos hx]
      refine congrArg (fun t => acc ++ t) ?_
      simp only [dedupFirst, List.filter_cons]
      rw [if_neg (by simpa using hx)]
      rw [List.filter_filter]
      refine List.filter_congr ?_
      intro a _
      by_cases h1 : a = x
      · subst h1; simp [hx]
      · by_cases h2 : a ∈ acc <;> simp [h1, h2]
    · rw [setAdd, if_neg hx]
      simp only [dedupFirst, List.filter_cons]
      rw [if_pos (by simpa using hx)]
      rw [List.append_assoc]
      refine congrArg (fun t => acc ++ t) ?_
      simp only [List.singleton_append]
      refine congrArg (fun t => x :: t) ?_
      rw [List.filter_filter]
      refine List.filter_congr ?_
      intro a _
      by_cases h1 : a = x
      · subst h1; simp
      · by_cases h2 : a ∈ acc <;> simp [h1, h2]

theorem jsSet_eq_dedupFirst (l : List String) : jsSet l = dedupFirst l := by
  rw [jsSet, foldl_setAdd]
  simp

theorem setAddAll_nil_eq (l : List String) : setAddAll [] l = dedupFirst l :=
  jsSet_eq_dedupFirst l

theorem setAddAll_append (s a b : List String) :
    setAddAll s (a ++ b) = setAddAll (setAddAll s a) b :=
  List.foldl_append setAdd s a b

theorem dedupFirst_eq_self {l : List String} (h : l.Nodup) : dedupFirst l = l := by
  induction l with
  | nil => rfl
  | cons x xs ih =>
    rcases List.nodup_cons.1 h with ⟨hx, hxs⟩
    simp only [dedupFirst, ih hxs]
    refine congrArg (fun t => x :: t) ?_
    rw [List.filter_eq_self]
    intro a ha
    simp only [decide_eq_true_eq]
    rintro rfl
    exact hx ha

/-! ## Trim lemmas -/

theorem dropWhile_head_not (p : Char → Bool) (l : List Char) (c : Char)
    (h : (l.dropWhile p).head? = some c) : p c = false := by
  induction l with
  | nil => simp [List.dropWhile] at h
  | cons x xs ih =>
    rw [List.dropWhile_cons] at h
    by_cases hx : p x
    · exact ih (by simpa [hx] using h)
    · rw [if_neg (by simpa using hx)] at h
      simp only [List.head?_cons, Option.some.injEq] at h
      subst h
      simpa using hx

theorem dropWhile_eq_self_of_head (p : Char → Bool) (l : List Char)
    (h : ∀ c, l.head? = some c → p c = false) : l.dropWhile p = l := by
  cases l with
  | nil => rfl
  | cons x xs =>
    rw [List.dropWhile_cons, if_neg]
    simp [h x rfl]

theorem trimChars_idem (l : List Char) : trimChars (trimChars l) = trimChars l := by
  have h1 : ∀ c, (trimChars l).head? = some c → isJsWS c = false := by
    intro c hc
    have hpre : trimChars l <+: l.dropWhile isJsWS := by
      have h0 := List.reverse_prefix.2
        (@List.dropWhile_suffix Char ((l.dropWhile isJsWS).reverse) isJsWS)
      rw [List.reverse_reverse] at h0
      exact h0
    rcases hpre with ⟨t, ht⟩
    have : (l.dropWhile isJsWS).head? = some c := by
      rw [← ht, List.head?_append, hc]
      rfl
    exact dropWhile_head_not isJsWS l c this
  have h2 : ∀ c, (trimChars l).reverse.head? = some c → isJsWS c = false := by
    intro c hc
    rw [trimChars, List.reverse_reverse] at hc
    exact dropWhile_head_not isJsWS (l.dropWhile isJsWS).reverse c hc
  rw [trimChars, dropWhile_eq_self_of_head isJsWS (trimChars l) h1,
    dropWhile_eq_self_of_head isJsWS (trimChars l).reverse h2, List.reverse_reverse]

theorem jsTrim_idem (s : String) : jsTrim (jsTrim s) = jsTrim s := by
  simp only [jsTrim]
  rw [trimChars_idem]

/-! ## Order walk lemmas -/

theorem orderWalk_fst (l : List String) : ∀ s : List String,
    (orderWalk l s).1 = dedupFirst ((l.map jsTrim).filter (fun x => x ∈ s)) := by
  induction l with
  | nil => intro s; simp [orderWalk, dedupFirst]
  | cons h rest ih =>
    intro s
    by_cases hk : jsTrim h ∈ s
    · simp only [orderWalk, if_pos hk, List.map_cons, List.filter_cons]
      rw [if_pos (by simpa using hk)]
      simp only [dedupFirst]
      rw [ih (s.filter (fun x => x ≠ jsTrim h))]
      refine congrArg (fun t => jsTrim h :: t) ?_
      rw [← dedupFirst_filter]
      refine congrArg dedupFirst ?_
      rw [List.filter_filter]
      refine List.filter_congr ?_
      intro a _
      by_cases h1 : a ∈ s <;> by_cases h2 : a = jsTrim h <;>
        simp [List.mem_filter, h1, h2]
    · simp only [orderWalk, if_neg hk, List.map_cons, List.filter_cons]
      rw [if_neg (by simpa using hk)]
      exact ih s

theorem orderWalk_snd (l : List String) : ∀ s : List String,
    (orderWalk l s).2 = s.filter (fun x => x ∉ (orderWalk l s).1) := by
  induction l with
  | nil =>
    intro s
    simp only [orderWalk]
    rw [List.filter_eq_self.2]
    intro a _
    simp
  | cons h rest ih =>
    intro s
    by_cases hk : jsTrim h ∈ s
    · simp only [orderWalk, if_pos hk]
      rw [ih (s.filter (fun x => x ≠ jsTrim h))]
      rw [List.filter_filter]
      refine List.filter_congr ?_
      intro a _
      by_cases h1 : a = jsTrim h
      · subst h1; simp
      · by_cases h2 : a ∈ (orderWalk rest (s.filter (fun x => x ≠ jsTrim h))).1 <;>
          simp [h1, h2]
    · simp only [orderWalk, if_neg hk]
      exact ih s

theorem reorder_decomp (m c : List String) :
    reorderHandlesByShopifyOrder m c =
      catalogPart m c ++ (mappingDistinct m).filter (fun x => x ∉ catalogPart m c) := by
  show (orderWalk c (jsSet ((m.map jsTrim).filter (fun s => s ≠ "")))).1 ++
      (orderWalk m (orderWalk c (jsSet ((m.map jsTrim).filter (fun s => s ≠ "")))).2).1 = _
  rw [jsSet_eq_dedupFirst]
  have hfst : (orderWalk c (dedupFirst ((m.map jsTrim).filter (fun s => s ≠ "")))).1 =
      catalogPart m c := by
    rw [orderWalk_fst]; rfl
  rw [orderWalk_snd c, hfst]
  refine congrArg (fun t => catalogPart m c ++ t) ?_
  rw [orderWalk_fst]
  have h3 : (m.map jsTrim).filter
        (fun x => x ∈ (mappingDistinct m).filter (fun y => y ∉ catalogPart m c)) =
      ((m.map jsTrim).filter (fun x => x ≠ "")).filter (fun x => x ∉ catalogPart m c) := by
    rw [List.filter_filter]
    refine List.filter_congr ?_
    intro a ha
    have hmem : a ∈ mappingDistinct m ↔ a ≠ "" := by
      rw [mappingDistinct, mem_dedupFirst, List.mem_filter]
      simp [ha]
    by_cases h1 : a ≠ "" <;> by_cases h2 : a ∈ catalogPart m c <;>
      simp [List.mem_filter, hmem, h1, h2]
  have hgoal : (mappingDistinct m).filter (fun y => y ∉ catalogPart m c) =
      (dedupFirst ((m.map jsTrim).filter (fun x => x ≠ ""))).filter
        (fun x => x ∉ catalogPart m c) := rfl
  rw [← hgoal, h3, dedupFirst_filter, ← hgoal]

theorem catalogPart_subset (m c : List String) (x : String) (h : x ∈ catalogPart m c) :
    x ∈ mappingDistinct m := by
  have h2 := (mem_dedupFirst x _).1 h
  have h3 := (List.mem_filter.1 h2).2
  simpa using h3

theorem reorder_mem (m c : List String) (x : String) :
    x ∈ reorderHandlesByShopifyOrder m c ↔ x ∈ mappingDistinct m := by
  rw [reorder_decomp, List.mem_append]
  constructor
  · rintro (h | h)
    · exact catalogPart_subset m c x h
    · exact (List.mem_filter.1 h).1
  · intro h
    by_cases hcp : x ∈ catalogPart m c
    · exact Or.inl hcp
    · exact Or.inr (List.mem_filter.2 ⟨h, by simpa using hcp⟩)

theorem reorder_count (m c : List String) (x : String) :
    (reorderHandlesByShopifyOrder m c).count x =
      if x ∈ mappingDistinct m then 1 else 0 := by
  rw [reorder_decomp, List.count_append]
  have hCPnd : (catalogPart m c).Nodup := dedupFirst_nodup _
  have hORnd : ((mappingDistinct m).filter (fun y => y ∉ catalogPart m c)).Nodup :=
    (dedupFirst_nodup _).filter _
  by_cases hD : x ∈ mappingDistinct m
  · rw [if_pos hD]
    by_cases hCP : x ∈ catalogPart m c
    · rw [List.count_eq_one_of_mem hCPnd hCP, List.count_eq_zero_of_not_mem]
      intro hx
      exact absurd hCP (by simpa using (List.mem_filter.1 hx).2)
    · rw [List.count_eq_zero_of_not_mem hCP,
        List.count_eq_one_of_mem hORnd (List.mem_filter.2 ⟨hD, by simpa using hCP⟩)]
  · rw [if_neg hD]
    rw [List.count_eq_zero_of_not_mem (fun hx => hD (catalogPart_subset m c x hx)),
      List.count_eq_zero_of_not_mem (fun hx => hD ((List.mem_filter.1 hx).1))]

/-- Claim C1: for every list of mapping handles and every catalog-ordered
handle sequence, `reorderHandlesByShopifyOrder` emits every distinct
(trimmed, non-empty) mapping handle exactly once and nothing else, the
catalog-ordered ones first (first occurrence wins) and the remaining
mapping handles after them in their original relative order; in
particular `reorder(["a","b","c"], ["c","a"]) = ["c","a","b"]`. -/
theorem c1_reorder_bijection :
    (∀ m c : List String,
      reorderHandlesByShopifyOrder m c =
        catalogPart m c ++ (mappingDistinct m).filter (fun x => x ∉ catalogPart m c)
      ∧ ∀ x : String,
          (reorderHandlesByShopifyOrder m c).count x =
            if x ∈ mappingDistinct m then 1 else 0)
    ∧ reorderHandlesByShopifyOrder [("a"), ("b"), ("c")] [("c"), ("a")] =
        [("c"), ("a"), ("b")] :=
  ⟨fun m c => ⟨reorder_decomp m c, fun x => reorder_count m c x⟩, by decide⟩

/-! ## Sync engine theorems -/

/-- Claim C2: when the Source Table page read returns zero rows, the
batch action returns `done = true` with all batch statistics zero and the
caller-supplied running totals unchanged, performs no writes, and raises
no error. -/
theorem c2_zero_rows (env : SyncEnv) (offsetIn limitIn : Int) (rt : RunTotals)
    (cnt : Option Int) (hpage : env.masterPage = Except.ok ([], cnt)) :
    syncGradesBatch env offsetIn limitIn rt =
      (SyncResult.success true
        { offset := max 0 offsetIn, limit := max 1 (min 200 limitIn), batchFetched := 0,
          uniqueHandles := 0, updatedHandles := 0, updatedRows := 0, insertedProducts := 0,
          insertedRows := 0, missingInShopify := 0, masterTotal := cnt,
          nextOffset := max 0 offsetIn, hasMore := false }
        rt, []) := by
  simp [syncGradesBatch, hpage]

theorem c2_zero_rows_witness :
    syncGradesBatch envEmptyPage 0 50 totalsZero =
      (SyncResult.success true
        { offset := 0, limit := 50, batchFetched := 0, uniqueHandles := 0,
          updatedHandles := 0, updatedRows := 0, insertedProducts := 0,
          insertedRows := 0, missingInShopify := 0, masterTotal := none,
          nextOffset := 0, hasMore := false }
        totalsZero, []) := by
  have h := c2_zero_rows envEmptyPage 0 50 totalsZero none rfl
  simpa using h

/-- Claim C3: a handle of the batch with no case-insensitive match in the
Mapping Store whose live catalog lookup cleanly returns no product
increments `missingInShopify` by exactly 1, leaves every other counter
unchanged, and issues no Mapping Store write for that handle. -/
theorem c3_missing_no_write (env : SyncEnv) (hKey : String) (entry : HandleEntry)
    (rest : List (String × HandleEntry)) (acc : BatchCounts)
    (hex : env.existingRows (jsOr entry.handleRaw hKey) = Except.ok [])
    (hfetch : env.fetchProduct (jsOr entry.handleRaw hKey) = Except.ok none) :
    processHandles env ((hKey, entry) :: rest) acc =
      processHandles env rest
        { acc with missingInShopify := acc.missingInShopify + 1 } := by
  simp [processHandles, hex, hfetch]

theorem c3_missing_no_write_witness :
    processHandles envEmptyPage [(("missing-product"),
        { handleRaw := ("missing-product"), grade := ("7") })] countsZero =
      processHandles envEmptyPage []
        { updatedHandles := 0, updatedRows := 0, insertedProducts := 0,
          insertedRows := 0, missingInShopify := 1 } := by
  have h := c3_missing_no_write envEmptyPage ("missing-product")
    ({ handleRaw := ("missing-product"), grade := ("7") }) [] countsZero rfl rfl
  simpa [countsZero] using h

/-- Claim C5: a non-empty batch's summary satisfies
`nextOffset = offset + limit`, `hasMore` follows the total-count law
(`nextOffset < totalCount` when the exact count is a number, else true),
`done = !hasMore`, and the returned running totals are the caller's totals
plus this batch's counts field-wise with `batches` incremented by one. -/
theorem c5_nonempty_summary (env : SyncEnv) (offsetIn limitIn : Int) (rt : RunTotals)
    (rows : List SourceRow) (cnt : Option Int) (d : Bool) (s : BatchSummary)
    (rt2 : RunTotals) (ws : List WriteOp)
    (hpage : env.masterPage = Except.ok (rows, cnt))
    (hne : rows ≠ [])
    (hrun : syncGradesBatch env offsetIn limitIn rt = (SyncResult.success d s rt2, ws)) :
    s.nextOffset = s.offset + s.limit
    ∧ s.masterTotal = cnt
    ∧ s.hasMore = hasMoreSpec cnt s.nextOffset
    ∧ d = !s.hasMore
    ∧ rt2.batches = rt.batches + 1
    ∧ rt2.uniqueHandles = rt.uniqueHandles + s.uniqueHandles
    ∧ rt2.updatedHandles = rt.updatedHandles + s.updatedHandles
    ∧ rt2.updatedRows = rt.updatedRows + s.updatedRows
    ∧ rt2.insertedProducts = rt.insertedProducts + s.insertedProducts
    ∧ rt2.insertedRows = rt.insertedRows + s.insertedRows
    ∧ rt2.missingInShopify = rt.missingInShopify + s.missingInShopify := by
  simp only [syncGradesBatch, hpage] at hrun
  rw [if_neg (by simpa [List.length_eq_zero] using hne)] at hrun
  rcases hp : processHandles env (buildHandleToGrade rows)
      { updatedHandles := 0, updatedRows := 0, insertedProducts := 0,
        insertedRows := 0, missingInShopify := 0 } with ⟨res, tr⟩
  rw [hp] at hrun
  cases res with
  | error msg => simp at hrun
  | ok c =>
    simp only [Prod.mk.injEq, SyncResult.success.injEq] at hrun
    obtain ⟨⟨hd, hs, hrt⟩, hws⟩ := hrun
    subst hd hs hrt
    refine ⟨rfl, rfl, ?_, rfl, rfl, rfl, rfl, rfl, rfl, rfl, rfl⟩
    cases cnt <;> simp [hasMoreSpec]

theorem c5_nonempty_summary_witness :
    summaryOneMissing.nextOffset = summaryOneMissing.offset + summaryOneMissing.limit
    ∧ summaryOneMissing.masterTotal = some 10
    ∧ summaryOneMissing.hasMore = hasMoreSpec (some 10) summaryOneMissing.nextOffset
    ∧ true = !summaryOneMissing.hasMore
    ∧ totalsOneMissing.batches = totalsZero.batches + 1
    ∧ totalsOneMissing.uniqueHandles =
        totalsZero.uniqueHandles + summaryOneMissing.uniqueHandles
    ∧ totalsOneMissing.updatedHandles =
        totalsZero.updatedHandles + summaryOneMissing.updatedHandles
    ∧ totalsOneMissing.updatedRows = totalsZero.updatedRows + summaryOneMissing.updatedRows
    ∧ totalsOneMissing.insertedProducts =
        totalsZero.insertedProducts + summaryOneMissing.insertedProducts
    ∧ totalsOneMissing.insertedRows =
        totalsZero.insertedRows + summaryOneMissing.insertedRows
    ∧ totalsOneMissing.missingInShopify =
        totalsZero.missingInShopify + summaryOneMissing.missingInShopify :=
  c5_nonempty_summary envOneMissing 0 50 totalsZero
    [{ Handle := ("a"), Grade := ("1") }] (some 10) true summaryOneMissing
    totalsOneMissing [] rfl (by decide) (by decide)

/-! ## Query endpoint theorems -/

/-- Claim C6: the ordered collection retrieval uses the sort-key attempt
when it succeeds, falls back to the no-sort-key attempt on error, returns
the empty sequence when both fail, and a failed (hence empty) ordered
retrieval never fails the collection-mode endpoint, which then answers
with the Mapping Store handles in their original order. -/
theorem c6_order_fallback (params : ProxyParams)
    (pq : String → String → Except String (List Row))
    (cq : String → Except String (List Row))
    (a2 : Except String (List String)) (hs : List String) (e1 e2 : String)
    (rows : List Row) :
    fetchShopifyCollectionHandlesInOrder (Except.ok hs) a2 = hs
    ∧ fetchShopifyCollectionHandlesInOrder (Except.error e1) (Except.ok hs) = hs
    ∧ fetchShopifyCollectionHandlesInOrder (Except.error e1) (Except.error e2) = []
    ∧ (jsTrim params.collection_handle ≠ "" → jsTrim params.product_handle = "" →
       cq (jsTrim params.collection_handle) = Except.ok rows →
       responseHandles
           (proxyLoader params pq cq (Except.error e1) (Except.error e2)) =
         some (collectionHandles rows (jsTrim params.grade))) := by
  refine ⟨rfl, rfl, rfl, ?_⟩
  intro h1 h2 h3
  simp [proxyLoader, h1, h2, h3, fetchShopifyCollectionHandlesInOrder, responseHandles]

theorem c6_order_fallback_witness :
    responseHandles
        (proxyLoader
          { collection_handle := ("junior-shirts"), grade := (""),
            product_handle := (""), page := (""), limit := ("") }
          pqEmpty cqEmpty (Except.error ("x")) (Except.error ("y"))) =
      some (collectionHandles [] (jsTrim (""))) :=
  (c6_order_fallback
    { collection_handle := ("junior-shirts"), grade := (""),
      product_handle := (""), page := (""), limit := ("") }
    pqEmpty cqEmpty (Except.ok []) [] ("x") ("y") []).2.2.2
    (by decide) (by decide) rfl

/-- Claim C10: in product mode (non-empty trimmed `product_handle`), the
endpoint's response does not depend on the `grade` query parameter. -/
theorem c10_product_mode_grade_independent (params : ProxyParams) (g2 : String)
    (pq : String → String → Except String (List Row))
    (cq : String → Except String (List Row))
    (a1 a2 : Except String (List String))
    (hprod : jsTrim params.product_handle ≠ "") :
    proxyLoader { params with grade := g2 } pq cq a1 a2 =
      proxyLoader params pq cq a1 a2 := by
  by_cases hch : jsTrim params.collection_handle = ""
  · simp [proxyLoader, hch]
  · simp [proxyLoader, hch, hprod]

theorem c10_product_mode_grade_independent_witness :
    proxyLoader
        { collection_handle := ("c"), grade := ("8"), product_handle := ("p"),
          page := (""), limit := ("") }
        pqEmpty cqEmpty (Except.error ("x")) (Except.error ("y")) =
      proxyLoader
        { collection_handle := ("c"), grade := ("7"), product_handle := ("p"),
          page := (""), limit := ("") }
        pqEmpty cqEmpty (Except.error ("x")) (Except.error ("y")) :=
  c10_product_mode_grade_independent
    { collection_handle := ("c"), grade := ("7"), product_handle := ("p"),
      page := (""), limit := ("") }
    ("8") pqEmpty cqEmpty (Except.error ("x")) (Except.error ("y")) (by decide)

/-- Claim C9: `splitGrades` is pure and total by construction; every
returned token is non-empty and trim-fixed (hence not whitespace-only),
the token sequence is an order-preserving subsequence of the trimmed
comma-split of the input, and every non-empty token keeps its full
multiplicity (duplicates retained). -/
theorem c9_splitGrades (s : String) :
    (∀ t ∈ splitGrades s, t ≠ "" ∧ jsTrim t = t)
    ∧ List.Sublist (splitGrades s) ((splitComma s).map jsTrim)
    ∧ (∀ t : String, t ≠ "" →
        List.count t (splitGrades s) = List.count t ((splitComma s).map jsTrim)) := by
  refine ⟨?_, List.filter_sublist _, ?_⟩
  · intro t ht
    rcases List.mem_filter.1 ht with ⟨hmem, hne⟩
    rcases List.mem_map.1 hmem with ⟨u, _, hu⟩
    refine ⟨by simpa using hne, ?_⟩
    rw [← hu, jsTrim_idem]
  · intro t ht
    exact List.count_filter (by simpa using ht)

theorem c9_splitGrades_witness :
    List.count ("7") (splitGrades (" 7, ,7")) =
      List.count ("7") ((splitComma (" 7, ,7")).map jsTrim) :=
  (c9_splitGrades (" 7, ,7")).2.2 ("7") (by decide)

/-! ## Association-list lemmas -/

theorem lookupKV_append {β : Type} (k k0 : String) (e0 : β) (m : List (String × β)) :
    lookupKV k (m ++ [(k0, e0)]) =
      match lookupKV k m with
      | some v => some v
      | none => if k0 = k then some e0 else none := by
  induction m with
  | nil => simp [lookupKV]
  | cons p rest ih =>
    rcases p with ⟨k1, v1⟩
    by_cases h : k1 = k
    · simp [lookupKV, h]
    · simpa [lookupKV, h] using ih

theorem lookupKV_update {β : Type} (k k0 : String) (v : β) (m : List (String × β)) :
    lookupKV k (updateKV k0 v m) =
      if k0 = k then (lookupKV k m).map (fun _ => v) else lookupKV k m := by
  induction m with
  | nil => simp [lookupKV, updateKV]
  | cons p rest ih =>
    rcases p with ⟨k1, v1⟩
    rw [updateKV, List.map_cons]
    have hrest : List.map (fun p => if p.1 = k0 then (k0, v) else p) rest =
        updateKV k0 v rest := rfl
    by_cases h1 : k1 = k0
    · rw [if_pos h1]
      by_cases h2 : k0 = k
      · rw [lookupKV, if_pos h2, if_pos h2, lookupKV, if_pos (h1.trans h2)]
        rfl
      · rw [lookupKV, if_neg h2, if_neg h2, hrest, ih, if_neg h2, lookupKV,
          if_neg (fun hh => h2 (h1.symm.trans hh))]
    · rw [if_neg h1]
      by_cases h2 : k1 = k
      · have h3 : ¬ k0 = k := fun hh => h1 (h2.trans hh.symm)
        rw [lookupKV, if_pos h2, if_neg h3, lookupKV, if_pos h2]
      · rw [lookupKV, if_neg h2, hrest, ih]
        by_cases h3 : k0 = k
        · rw [if_pos h3, if_pos h3, lookupKV, if_neg h2]
        · rw [if_neg h3, if_neg h3, lookupKV, if_neg h2]

theorem lookupKV_mem {β : Type} (k : String) (m : List (String × β)) (e : β)
    (h : lookupKV k m = some e) : (k, e) ∈ m := by
  induction m with
  | nil => simp [lookupKV] at h
  | cons p rest ih =>
    rcases p with ⟨k1, v1⟩
    by_cases hk : k1 = k
    · subst hk
      rw [lookupKV, if_pos rfl] at h
      simp only [Option.some.injEq] at h
      subst h
      exact List.mem_cons_self _ _
    · rw [lookupKV, if_neg hk] at h
      exact List.mem_cons_of_mem _ (ih h)

/-! ## Sync dedup map characterization -/

theorem grpRows_cons_skip (k : String) (r : SourceRow) (rest : List SourceRow)
    (h : ¬(jsTrim r.Handle ≠ "" ∧ (jsTrim r.Handle).toLower = k)) :
    grpRows k (r :: rest) = grpRows k rest := by
  show List.filter _ (r :: rest) = List.filter _ rest
  rw [List.filter_cons, if_neg (by simpa using h)]

theorem grpRows_cons_take (k : String) (r : SourceRow) (rest : List SourceRow)
    (h : jsTrim r.Handle ≠ "" ∧ (jsTrim r.Handle).toLower = k) :
    grpRows k (r :: rest) = r :: grpRows k rest := by
  show List.filter _ (r :: rest) = r :: List.filter _ rest
  rw [List.filter_cons, if_pos (by simpa using h)]

theorem firstGrade_cons_pos (r : SourceRow) (rest : List SourceRow)
    (h : jsTrim r.Grade ≠ "") : firstGrade (r :: rest) = jsTrim r.Grade := by
  simp [firstGrade, List.find?_cons, h]

theorem firstGrade_cons_neg (r : SourceRow) (rest : List SourceRow)
    (h : jsTrim r.Grade = "") : firstGrade (r :: rest) = firstGrade rest := by
  simp [firstGrade, List.find?_cons, h]

theorem entry_eta_grade (e : HandleEntry) :
    ({ handleRaw := e.handleRaw, grade := if e.grade ≠ "" then e.grade else "" } :
      HandleEntry) = e := by
  cases e with
  | mk h g => by_cases hg : g = "" <;> simp [hg]

theorem buildAux_lookup (rows : List SourceRow) :
    ∀ (m : List (String × HandleEntry)) (k : String),
    (∀ p ∈ m, p.2.handleRaw ≠ "") →
    lookupKV k (buildAux rows m) =
      match lookupKV k m with
      | some e => some { handleRaw := e.handleRaw,
                         grade := if e.grade ≠ "" then e.grade
                                  else firstGrade (grpRows k rows) }
      | none => (grpRows k rows).head?.map
          (fun r => { handleRaw := jsTrim r.Handle, grade := firstGrade (grpRows k rows) }) := by
  induction rows with
  | nil =>
    intro m k _
    show lookupKV k m = _
    cases hl : lookupKV k m with
    | none => simp [grpRows]
    | some e =>
      simp only [grpRows, List.filter_nil, firstGrade, List.find?_nil]
      exact (congrArg some (entry_eta_grade e)).symm
  | cons r rest ih =>
    intro m k hm
    by_cases hhr : jsTrim r.Handle = ""
    · have hstep : buildAux (r :: rest) m = buildAux rest m := by
        simp [buildAux, hhr]
      rw [hstep, grpRows_cons_skip k r rest (by simp [hhr]), ih m k hm]
    · cases hlk : lookupKV ((jsTrim r.Handle).toLower) m with
      | none =>
        have hstep : buildAux (r :: rest) m =
            buildAux rest (m ++ [((jsTrim r.Handle).toLower,
              { handleRaw := jsTrim r.Handle, grade := jsTrim r.Grade })]) := by
          simp [buildAux, hhr, hlk]
        have hm2 : ∀ p ∈ m ++ [((jsTrim r.Handle).toLower,
            ({ handleRaw := jsTrim r.Handle, grade := jsTrim r.Grade } : HandleEntry))],
            p.2.handleRaw ≠ "" := by
          intro p hp
          rcases List.mem_append.1 hp with hp | hp
          · exact hm p hp
          · rcases List.mem_singleton.1 hp with rfl
            simpa using hhr
        rw [hstep, ih _ k hm2, lookupKV_append]
        cases hkm : lookupKV k m with
        | some e =>
          have hk : ¬ ((jsTrim r.Handle).toLower = k) := by
            intro hh
            rw [hh, hkm] at hlk
            cases hlk
          rw [grpRows_cons_skip k r rest (fun hc => hk hc.2)]
        | none =>
          by_cases hkk : (jsTrim r.Handle).toLower = k
          · rw [if_pos hkk, grpRows_cons_take k r rest ⟨hhr, hkk⟩]
            by_cases hg : jsTrim r.Grade = ""
            · rw [firstGrade_cons_neg r _ hg]
              simp [hg]
            · rw [firstGrade_cons_pos r _ hg]
              simp [hg]
          · rw [if_neg hkk, grpRows_cons_skip k r rest (fun hc => hkk hc.2)]
      | some prev =>
        have hprevne : prev.handleRaw ≠ "" :=
          hm ((jsTrim r.Handle).toLower, prev) (lookupKV_mem _ m prev hlk)
        have hjs : jsOr prev.handleRaw (jsTrim r.Handle) = prev.handleRaw := by
          rw [jsOr, if_neg hprevne]
        by_cases hcond : prev.grade = "" ∧ jsTrim r.Grade ≠ ""
        · have hstep : buildAux (r :: rest) m =
              buildAux rest (updateKV ((jsTrim r.Handle).toLower)
                ({ handleRaw := jsOr prev.handleRaw (jsTrim r.Handle),
                   grade := jsTrim r.Grade }) m) := by
            simp [buildAux, hhr, hlk, hcond]
          have hm2 : ∀ p ∈ updateKV ((jsTrim r.Handle).toLower)
              ({ handleRaw := jsOr prev.handleRaw (jsTrim r.Handle),
                 grade := jsTrim r.Grade } : HandleEntry) m,
              p.2.handleRaw ≠ "" := by
            intro p hp
            rcases List.mem_map.1 hp with ⟨q, hq, rfl⟩
            by_cases hqk : q.1 = (jsTrim r.Handle).toLower
            · rw [if_pos hqk]
              simpa [hjs] using hprevne
            · rw [if_neg hqk]
              exact hm q hq
          rw [hstep, ih _ k hm2, lookupKV_update]
          by_cases hkk : (jsTrim r.Handle).toLower = k
          · rw [if_pos hkk, ← hkk, hlk,
              grpRows_cons_take _ r rest ⟨hhr, rfl⟩,
              firstGrade_cons_pos r _ hcond.2]
            simp [hjs, hcond.1, hcond.2]
          · rw [if_neg hkk, grpRows_cons_skip k r rest (fun hc => hkk hc.2)]
        · have hstep : buildAux (r :: rest) m = buildAux rest m := by
            simp [buildAux, hhr, hlk, hcond]
          rw [hstep, ih m k hm]
          by_cases hkk : (jsTrim r.Handle).toLower = k
          · rw [← hkk, hlk, grpRows_cons_take _ r rest ⟨hhr, rfl⟩]
            by_cases hpg : prev.grade = ""
            · have hgr : jsTrim r.Grade = "" := by
                by_contra hgr
                exact hcond ⟨hpg, hgr⟩
              rw [firstGrade_cons_neg r _ hgr]
            · simp [hpg]
          · rw [grpRows_cons_skip k r rest (fun hc => hkk hc.2)]

/-- Claim C4: the per-page dedup keyed on the lower-cased trimmed handle
keeps, for every key, the first-seen raw-cased handle, and keeps the
first-seen grade unless it is empty and a later duplicate in the page
supplies a non-empty one (the kept grade is the first non-empty trimmed
grade of the key's rows, else `""`); rows whose handle trims to empty are
dropped (they belong to no key group). -/
theorem c4_dedup_characterization (rows : List SourceRow) (k : String) :
    lookupKV k (buildHandleToGrade rows) =
      (grpRows k rows).head?.map
        (fun r => { handleRaw := jsTrim r.Handle,
                    grade := firstGrade (grpRows k rows) }) := by
  have h := buildAux_lookup rows [] k (by intro p hp; cases hp)
  simpa [lookupKV] using h

/-! ## gradeByHandle characterization -/

theorem handleGrades_cons_skip (r : Row) (rest : List Row) (h : String)
    (hr : ¬ (jsTrim r.product_handle = h)) :
    handleGrades (r :: rest) h = handleGrades rest h := by
  simp [handleGrades, rowsHandleGroup, List.filter_cons, hr]

theorem handleGrades_cons_take (r : Row) (rest : List Row) (h : String)
    (hr : jsTrim r.product_handle = h) :
    handleGrades (r :: rest) h = splitGrades r.grade ++ handleGrades rest h := by
  simp [handleGrades, rowsHandleGroup, List.filter_cons, hr]

theorem buildGradeSets_lookup (rows : List Row) :
    ∀ (m : List (String × List String)) (h : String),
    (∀ p ∈ m, p.1 ≠ "") →
    lookupKV h (buildGradeSets rows m) =
      match lookupKV h m with
      | some s => some (setAddAll s (handleGrades rows h))
      | none =>
        if h ≠ "" ∧ ∃ r ∈ rows, jsTrim r.product_handle = h
        then some (setAddAll [] (handleGrades rows h)) else none := by
  induction rows with
  | nil =>
    intro m h _
    show lookupKV h m = _
    cases hl : lookupKV h m with
    | none => simp
    | some s => simp [handleGrades, rowsHandleGroup, setAddAll]
  | cons r rest ih =>
    intro m h hm
    by_cases hhr : jsTrim r.product_handle = ""
    · have hstep : buildGradeSets (r :: rest) m = buildGradeSets rest m := by
        simp [buildGradeSets, hhr]
      rw [hstep, ih m h hm]
      cases hl : lookupKV h m with
      | some s =>
        have hne : h ≠ "" := hm (h, s) (lookupKV_mem _ m s hl)
        rw [handleGrades_cons_skip r rest h (fun hc => hne (hhr ▸ hc.symm))]
      | none =>
        by_cases hne : h = ""
        · subst hne
          simp
        · rw [handleGrades_cons_skip r rest h (fun hc => hne (hhr ▸ hc.symm))]
          have hex : (∃ x ∈ r :: rest, jsTrim x.product_handle = h) ↔
              (∃ x ∈ rest, jsTrim x.product_handle = h) := by
            constructor
            · rintro ⟨x, hx, hxh⟩
              rcases List.mem_cons.1 hx with rfl | hx
              · exact absurd (hhr ▸ hxh) (Ne.symm hne)
              · exact ⟨x, hx, hxh⟩
            · rintro ⟨x, hx, hxh⟩
              exact ⟨x, List.mem_cons_of_mem _ hx, hxh⟩
          simp only [hex]
    · cases hlk : lookupKV (jsTrim r.product_handle) m with
      | none =>
        have hstep : buildGradeSets (r :: rest) m =
            buildGradeSets rest
              (m ++ [(jsTrim r.product_handle, setAddAll [] (splitGrades r.grade))]) := by
          simp [buildGradeSets, hhr, hlk]
        have hm2 : ∀ p ∈ m ++ [(jsTrim r.product_handle,
            setAddAll [] (splitGrades r.grade))], p.1 ≠ "" := by
          intro p hp
          rcases List.mem_append.1 hp with hp | hp
          · exact hm p hp
          · rcases List.mem_singleton.1 hp with rfl
            simpa using hhr
        rw [hstep, ih _ h hm2, lookupKV_append]
        cases hkm : lookupKV h m with
        | some s =>
          have hk : ¬ (jsTrim r.product_handle = h) := by
            intro hh
            rw [hh, hkm] at hlk
            cases hlk
          rw [handleGrades_cons_skip r rest h hk]
        | none =>
          by_cases hkk : jsTrim r.product_handle = h
          · rw [if_pos hkk, handleGrades_cons_take r rest h hkk]
            have hcondpos : h ≠ "" ∧ ∃ x ∈ r :: rest, jsTrim x.product_handle = h :=
              ⟨fun hh => hhr (hkk.trans hh), ⟨r, List.mem_cons_self _ _, hkk⟩⟩
            rw [if_pos hcondpos, setAddAll_append]
          · rw [if_neg hkk, handleGrades_cons_skip r rest h hkk]
            have hex : (∃ x ∈ r :: rest, jsTrim x.product_handle = h) ↔
                (∃ x ∈ rest, jsTrim x.product_handle = h) := by
              constructor
              · rintro ⟨x, hx, hxh⟩
                rcases List.mem_cons.1 hx with rfl | hx
                · exact absurd hxh hkk
                · exact ⟨x, hx, hxh⟩
              · rintro ⟨x, hx, hxh⟩
                exact ⟨x, List.mem_cons_of_mem _ hx, hxh⟩
            simp only [hex]
      | some prev =>
        have hstep : buildGradeSets (r :: rest) m =
            buildGradeSets rest (updateKV (jsTrim r.product_handle)
              (setAddAll prev (splitGrades r.grade)) m) := by
          simp [buildGradeSets, hhr, hlk]
        have hm2 : ∀ p ∈ updateKV (jsTrim r.product_handle)
            (setAddAll prev (splitGrades r.grade)) m, p.1 ≠ "" := by
          intro p hp
          rcases List.mem_map.1 hp with ⟨q, hq, rfl⟩
          by_cases hqk : q.1 = jsTrim r.product_handle
          · rw [if_pos hqk]
            simpa using hhr
          · rw [if_neg hqk]
            exact hm q hq
        rw [hstep, ih _ h hm2, lookupKV_update]
        by_cases hkk : jsTrim r.product_handle = h
        · rw [if_pos hkk, ← hkk, hlk, handleGrades_cons_take r rest _ rfl]
          simp [setAddAll_append]
        · rw [if_neg hkk, handleGrades_cons_skip r rest h hkk]
          cases hl2 : lookupKV h m with
          | some s => rfl
          | none =>
            have hex : (∃ x ∈ r :: rest, jsTrim x.product_handle = h) ↔
                (∃ x ∈ rest, jsTrim x.product_handle = h) := by
              constructor
              · rintro ⟨x, hx, hxh⟩
                rcases List.mem_cons.1 hx with rfl | hx
                · exact absurd hxh hkk
                · exact ⟨x, hx, hxh⟩
              · rintro ⟨x, hx, hxh⟩
                exact ⟨x, List.mem_cons_of_mem _ hx, hxh⟩
            simp only [hex]

/-- Claim C7 as amended: in the collection-mode response, every
`gradeByHandle` entry is the comma-join of the handle's distinct grade
tokens in first-occurrence order (hence `""`, not `"all"`, for a handle
with no grade constraint). -/
theorem c7_gradeByHandle_amended (rows : List Row) (sel : String) :
    collectionGradeByHandle rows sel =
      (collectionHandles rows sel).map (fun h =>
        (h, joinComma (dedupFirst (handleGrades (filteredRowsOf rows sel) h)))) := by
  simp only [collectionGradeByHandle]
  refine List.map_congr_left ?_
  intro h hmem
  have h0 : h ∈ dedupFirst (((filteredRowsOf rows sel).map
      (fun r => jsTrim r.product_handle)).filter (fun x => x ≠ "")) := by
    rw [← jsSet_eq_dedupFirst]
    exact hmem
  have hmem2 := (mem_dedupFirst h _).1 h0
  have hne : h ≠ "" := by simpa using (List.mem_filter.1 hmem2).2
  have hex : ∃ r ∈ filteredRowsOf rows sel, jsTrim r.product_handle = h := by
    rcases List.mem_map.1 (List.mem_filter.1 hmem2).1 with ⟨r, hr, hrh⟩
    exact ⟨r, hr, hrh⟩
  have hbl := buildGradeSets_lookup (filteredRowsOf rows sel) [] h
    (by intro p hp; cases hp)
  simp only [lookupKV] at hbl
  rw [if_pos ⟨hne, hex⟩] at hbl
  simp [hbl, setAddAll_nil_eq]

/-- Claim C7 counterexample: handle `h` carries no grade constraint
(empty grade field), yet the collection response's `gradeByHandle` entry
for it is the empty string, not the string `all`. -/
theorem c7_gradeByHandle_counterexample :
    collectionGradeByHandle [{ product_handle := ("h"), grade := ("") }] ("") =
      [(("h"), (""))]
    ∧ (("" : String)) ≠ ("all") := by
  constructor
  · decide
  · decide

/-! ## Pagination and handle-list theorems -/

theorem collectionHandles_elem_fixed (rows : List Row) (sel : String) (u : String)
    (hu : u ∈ collectionHandles rows sel) : jsTrim u = u ∧ u ≠ "" := by
  have h0 : u ∈ dedupFirst (((filteredRowsOf rows sel).map
      (fun r => jsTrim r.product_handle)).filter (fun x => x ≠ "")) := by
    rw [← jsSet_eq_dedupFirst]
    exact hu
  have h1 := (mem_dedupFirst u _).1 h0
  rcases List.mem_filter.1 h1 with ⟨h2, h3⟩
  rcases List.mem_map.1 h2 with ⟨r, _, hr⟩
  exact ⟨by rw [← hr, jsTrim_idem], by simpa using h3⟩

theorem mem_reorder_collectionHandles (rows : List Row) (sel : String)
    (c : List String) (x : String) :
    x ∈ reorderHandlesByShopifyOrder (collectionHandles rows sel) c ↔
      x ∈ collectionHandles rows sel := by
  rw [reorder_mem]
  constructor
  · intro hx
    have h1 := (mem_dedupFirst x _).1 hx
    rcases List.mem_filter.1 h1 with ⟨h2, _⟩
    rcases List.mem_map.1 h2 with ⟨u, hu, hux⟩
    rcases collectionHandles_elem_fixed rows sel u hu with ⟨hfix, _⟩
    rw [← hux, hfix]
    exact hu
  · intro hx
    rcases collectionHandles_elem_fixed rows sel x hx with ⟨hfix, hne⟩
    refine (mem_dedupFirst x _).2 (List.mem_filter.2 ⟨?_, by simpa using hne⟩)
    exact List.mem_map.2 ⟨x, hx, hfix⟩

/-- Claim C8 as amended: the collection-mode response is not paginated:
the `page` and `limit` request parameters are ignored (any two requests
differing only in them get identical responses), and the returned
`handles` list contains exactly the distinct mapping handles of the
(possibly grade-filtered) rows. -/
theorem c8_no_pagination_amended (params : ProxyParams) (p2 l2 : String)
    (pq : String → String → Except String (List Row))
    (cq : String → Except String (List Row))
    (a1 a2 : Except String (List String)) (rows : List Row) (hs : List String) :
    proxyLoader { params with page := p2, limit := l2 } pq cq a1 a2 =
      proxyLoader params pq cq a1 a2
    ∧ (cq (jsTrim params.collection_handle) = Except.ok rows →
       responseHandles (proxyLoader params pq cq a1 a2) = some hs →
       ∀ x, x ∈ hs ↔ x ∈ collectionHandles rows (jsTrim params.grade)) := by
  refine ⟨rfl, ?_⟩
  intro hcq hresp x
  by_cases hch : jsTrim params.collection_handle = ""
  · simp [proxyLoader, hch, responseHandles] at hresp
  · by_cases hph : jsTrim params.product_handle = ""
    · simp only [proxyLoader, if_neg hch, hph, ne_eq, not_true_eq_false, if_false,
        ite_false, hcq, responseHandles, Option.some.injEq] at hresp
      by_cases hord : (fetchShopifyCollectionHandlesInOrder a1 a2).isEmpty
      · rw [if_pos hord] at hresp
        rw [← hresp]
      · rw [if_neg hord] at hresp
        rw [← hresp]
        exact mem_reorder_collectionHandles rows (jsTrim params.grade) _ x
    · cases hpq : pq (jsTrim params.collection_handle) (jsTrim params.product_handle) with
      | error e => simp [proxyLoader, hch, hph, hpq, responseHandles] at hresp
      | ok rs => simp [proxyLoader, hch, hph, hpq, responseHandles] at hresp

theorem c8_no_pagination_amended_witness :
    (("h1") ∈ [("h1"), ("h2")]) ↔
      (("h1") ∈ collectionHandles
        [{ product_handle := ("h1"), grade := ("1") },
         { product_handle := ("h2"), grade := ("2") }] (jsTrim (""))) :=
  (c8_no_pagination_amended
    { collection_handle := ("c"), grade := (""), product_handle := (""),
      page := ("1"), limit := ("1") } ("9") ("9") pqEmpty cqTwoRows
    (Except.error ("e1")) (Except.error ("e2"))
    [{ product_handle := ("h1"), grade := ("1") },
     { product_handle := ("h2"), grade := ("2") }]
    [("h1"), ("h2")]).2 rfl (by decide) ("h1")

/-- Claim C8 counterexample: with `limit=1` (and `page=1`) on the request
and two distinct mapping handles, the collection response still contains
both handles — the handle list is not cut to `limit` entries. -/
theorem c8_pagination_counterexample :
    responseHandles
        (proxyLoader
          { collection_handle := ("c"), grade := (""), product_handle := (""),
            page := ("1"), limit := ("1") }
          pqEmpty cqTwoRows (Except.error ("e1")) (Except.error ("e2"))) =
      some [("h1"), ("h2")]
    ∧ ¬ (List.length [("h1"), ("h2")] ≤ 1) := by
  constructor
  · decide
  · decide
